import Mathlib

/-!
Shallow embedding of the `amfa` command-line client (src/amfa): the
event-export pagination/tailing loop (`EventAPI.pull_events`), the
CSV-driven identity reconciliation workflow
(`IdentityManagementAPI.import_users_from_csv`), the group lookup and
enrollment paths, and the user-listing pagination
(`IdentityManagementAPI.list_users`).  Timestamps are modelled as integer
seconds, JSON records as association lists, remote interaction as finite
scripts of responses, and fallible Python operations (negative
`time.sleep`, `dict.pop` without default, out-of-range indexing,
uncaught exceptions) as `Except` values.
-/

namespace Amfa

/-! ## Configuration constants (config.py) -/

/-- config.py line 30: near-real-time padding in seconds
(`MOST_RECENT_PADDING = 30`). -/
def MOST_RECENT_PADDING : Int := 30

/-- config.py line 36: how often data is pulled in tail mode, in seconds
(`tail_pull_interval = 60`, a module-level constant). -/
def tail_pull_interval : Int := 60

/-! ## Event export engine: the tail-mode cycle boundary
(core.py, `EventAPI.pull_events`, lines 200-205) -/

/-- The scan window carried across polling cycles (`scan_start` /
`scan_end` in `pull_events`), in integer epoch seconds. -/
structure TimeWindow where
  scan_start : Int
  scan_end : Int
deriving DecidableEq, Repr

/-- Membership of a timestamp in a half-open scan window
(`after` inclusive, `before` exclusive). -/
def inWindow (w : TimeWindow) (t : Int) : Prop :=
  w.scan_start ≤ t ∧ t < w.scan_end

instance (w : TimeWindow) (t : Int) : Decidable (inWindow w t) :=
  inferInstanceAs (Decidable (_ ∧ _))

/-- CPython `time.sleep`: succeeds on a non-negative duration and raises
`ValueError` on a negative one. -/
def pythonSleep (wait : Int) : Except String Unit :=
  if wait < 0 then Except.error "ValueError: sleep length must be non-negative"
  else Except.ok ()

/-- core.py lines 200-205, the tail branch at the end of a polling cycle:
`wait = tail_pull_interval - (time.time() - loop_start)` (line 201, with no
clamping to zero; the source spells the interval
`self.config.tail_pull_interval`, the module-level constant of config.py
line 36, modelled here by its value), then `time.sleep(wait)` (line 203),
then the window advances: `scan_start = scan_end` and
`scan_end = utcnow() - MOST_RECENT_PADDING` (lines 204-205).
`elapsed` is the cycle's fetch/emit duration and `now` the current time. -/
def tailAdvance (w : TimeWindow) (elapsed now : Int) : Except String TimeWindow :=
  match pythonSleep (tail_pull_interval - elapsed) with
  | Except.error e => Except.error e
  | Except.ok _ =>
      Except.ok { scan_start := w.scan_end, scan_end := now - MOST_RECENT_PADDING }

/-- Claim C1: the spec says the engine sleeps `max(0, pull_interval -
elapsed)` seconds, so a cycle whose fetch/emit work took longer than the
60-second interval sleeps 0 seconds and the sleep step does not fail.  The
code has no clamp: for a cycle that took 61 seconds it computes
`wait = 60 - 61 = -1` and `time.sleep(-1)` raises `ValueError`, so the
cycle-end step fails instead of sleeping zero seconds. -/
theorem slow_cycle_sleep_fails :
    tail_pull_interval - 61 = -1 ∧
    tailAdvance ⟨0, 100⟩ 61 200 =
      Except.error "ValueError: sleep length must be non-negative" := by
  constructor <;> rfl

/-- Claim C2: whenever the tail-cycle boundary step completes, the next
cycle's window starts exactly where the previous one ended
(`scan_start = scan_end`), the new end is `now - MOST_RECENT_PADDING`, and
(for windows satisfying the `start ≤ end` invariant with a later new end)
no timestamp is covered by both windows while every timestamp between the
old start and the new end is covered by exactly one of them. -/
theorem window_stitching (w w2 : TimeWindow) (elapsed now t : Int)
    (hrun : tailAdvance w elapsed now = Except.ok w2)
    (hinv : w.scan_start ≤ w.scan_end)
    (hmono : w.scan_end ≤ now - MOST_RECENT_PADDING) :
    w2.scan_start = w.scan_end ∧
    w2.scan_end = now - MOST_RECENT_PADDING ∧
    ¬ (inWindow w t ∧ inWindow w2 t) ∧
    ((inWindow w t ∨ inWindow w2 t) ↔ (w.scan_start ≤ t ∧ t < w2.scan_end)) := by
  unfold tailAdvance pythonSleep at hrun
  by_cases hneg : tail_pull_interval - elapsed < 0
  · rw [if_pos hneg] at hrun
    exact absurd hrun (by simp)
  · rw [if_neg hneg] at hrun
    simp only [Except.ok.injEq] at hrun
    subst hrun
    refine ⟨rfl, rfl, ?_, ?_⟩
    · unfold inWindow
      simp only [not_and]
      intro h1 h2
      omega
    · unfold inWindow
      simp only
      constructor
      · intro h
        rcases h with h | h <;> constructor <;> omega
      · intro h
        by_cases hcut : t < w.scan_end
        · exact Or.inl ⟨h.1, hcut⟩
        · exact Or.inr ⟨by omega, h.2⟩

/-- Concrete run of `window_stitching`: a cycle over window [0, 10) that
took 5 seconds, at time 100, yields the stitched window [10, 70). -/
theorem window_stitching_check :
    (tailAdvance ⟨0, 10⟩ 5 100 = Except.ok ⟨10, 70⟩ ∧
      (0 : Int) ≤ 10 ∧ (10 : Int) ≤ 100 - MOST_RECENT_PADDING) ∧
    ((TimeWindow.mk 10 70).scan_start = (TimeWindow.mk 0 10).scan_end ∧
      (TimeWindow.mk 10 70).scan_end = 100 - MOST_RECENT_PADDING ∧
      ¬ (inWindow ⟨0, 10⟩ 3 ∧ inWindow ⟨10, 70⟩ 3) ∧
      ((inWindow ⟨0, 10⟩ 3 ∨ inWindow ⟨10, 70⟩ 3) ↔
        ((0 : Int) ≤ 3 ∧ (3 : Int) < (TimeWindow.mk 10 70).scan_end))) :=
  ⟨⟨rfl, by decide, by decide⟩,
    window_stitching ⟨0, 10⟩ ⟨10, 70⟩ 5 100 3 rfl (by decide) (by decide)⟩

/-! ## Event export engine: page loop and event emission
(core.py, `EventAPI.pull_events`, lines 174-198) -/

/-- An MFA event record: a JSON object modelled as an association list
from field name to opaque serialized value (the code does no schema
validation on events). -/
abbrev Event := List (String × String)

/-- Whether a record carries a field named `k`. -/
def hasField (e : Event) (k : String) : Bool :=
  e.any (fun p => p.1 == k)

/-- Python `dict.pop(k)` with no default (core.py line 193): removes the
field, or raises `KeyError` when the record does not carry it. -/
def popField (e : Event) (k : String) : Except String Event :=
  if hasField e k then Except.ok (e.filter (fun p => !(p.1 == k)))
  else Except.error "KeyError: receipt"

/-- core.py lines 191-195: emission of one fetched event inside the page
loop; when `noreceipt` is set the receipt field is popped first, then the
(possibly stripped) record is printed as one flushed JSON line. -/
def emitEvent (noreceipt : Bool) (e : Event) : Except String Event :=
  if noreceipt then popField e "receipt" else Except.ok e

/-- Emission of one page of fetched events in order (the for-loop at
core.py line 191); a `KeyError` aborts at the first failing record. -/
def emitEvents (noreceipt : Bool) (events : List Event) : Except String (List Event) :=
  events.mapM (emitEvent noreceipt)

/-- One response of the auths report endpoint:
`{continuation_token?, result: {data: [event, ...]}}` (the code reads the
token with `.get` and the data with `.get('result', {}).get('data', [])`). -/
structure PageResponse where
  continuation_token : Option String
  data : List Event

/-- Python truthiness of the optional continuation token (core.py lines
184 and 197 both test it with a bare `if`): an absent token and an empty
string are falsy, any other string is truthy. -/
def tokenTruthy : Option String → Bool
  | none => false
  | some t => !(t == "")

/-- core.py lines 176-198: the inner page loop for one window, run against
a finite script of server responses (response k answers the k-th POST of
the cycle).  `tok` is the continuation token the current request carries
(`none` for the first request, whose payload is empty).  Returns the
payload tokens of the requests issued together with the emitted events (or
the KeyError aborting emission); `none` when the script runs out while the
loop still wants another page. -/
def pageLoopAux (noreceipt : Bool) (tok : Option String) :
    List PageResponse → Option (List (Option String) × Except String (List Event))
  | [] => none
  | r :: rest =>
    match emitEvents noreceipt r.data with
    | Except.error e => some ([tok], Except.error e)
    | Except.ok evs =>
      if tokenTruthy r.continuation_token then
        match pageLoopAux noreceipt r.continuation_token rest with
        | none => none
        | some (reqs, Except.error e) => some (tok :: reqs, Except.error e)
        | some (reqs, Except.ok evs2) => some (tok :: reqs, Except.ok (evs ++ evs2))
      else some ([tok], Except.ok evs)

/-- core.py lines 174-207 with `tail = false`: the outer loop runs the
page loop for the initial window once and then breaks (line 207),
terminating the engine. -/
def pull_events_notail (noreceipt : Bool) (rs : List PageResponse) :
    Option (List (Option String) × Except String (List Event)) :=
  pageLoopAux noreceipt none rs

lemma emitEvents_false (events : List Event) :
    emitEvents false events = Except.ok events := by
  induction events with
  | nil => rfl
  | cons e rest ih =>
      unfold emitEvents at ih ⊢
      rw [List.mapM_cons, ih]
      rfl

lemma pageLoopAux_script (tok : Option String) (mids : List PageResponse)
    (last : PageResponse)
    (hmid : ∀ r ∈ mids, tokenTruthy r.continuation_token = true)
    (hlast : tokenTruthy last.continuation_token = false) :
    pageLoopAux false tok (mids ++ [last]) =
      some (tok :: mids.map (fun r => r.continuation_token),
            Except.ok (((mids ++ [last]).map PageResponse.data).flatten)) := by
  induction mids generalizing tok with
  | nil =>
      simp only [List.nil_append, pageLoopAux, emitEvents_false, hlast]
      simp
  | cons m rest ih =>
      have hm : tokenTruthy m.continuation_token = true := hmid m (by simp)
      have hrest : ∀ r ∈ rest, tokenTruthy r.continuation_token = true :=
        fun r hr => hmid r (by simp [hr])
      simp only [List.cons_append, pageLoopAux, emitEvents_false, hm, if_true]
      simp only [List.append_eq]
      rw [ih m.continuation_token hrest]
      simp

/-- Claim C3: serve one window from a finite script of page responses in
which every page before the last carries a (truthy) continuation token and
the last omits it.  The page loop then issues exactly one request per
response — the first with an empty payload and each following request
carrying exactly the token of the previous response, so another request is
issued precisely when the previous response contained a token — stops at
the first token-less response, and emits every page's events in page
order, each exactly once; with tail false the engine performs just this
one cycle.  With N = mids.length + 1 pages of K events each, exactly
N * K events are emitted. -/
theorem pagination_termination (mids : List PageResponse) (last : PageResponse) (K : Nat)
    (hmid : ∀ r ∈ mids, tokenTruthy r.continuation_token = true)
    (hlast : tokenTruthy last.continuation_token = false)
    (hK : ∀ r ∈ mids ++ [last], r.data.length = K) :
    pull_events_notail false (mids ++ [last]) =
      some (none :: mids.map (fun r => r.continuation_token),
            Except.ok (((mids ++ [last]).map PageResponse.data).flatten)) ∧
    (((mids ++ [last]).map PageResponse.data).flatten).length = (mids.length + 1) * K := by
  constructor
  · exact pageLoopAux_script none mids last hmid hlast
  · have hrepl : (mids ++ [last]).map (fun r => r.data.length) =
        List.replicate (mids.length + 1) K := by
      apply List.eq_replicate_iff.mpr
      refine ⟨by simp, ?_⟩
      intro b hb
      simp only [List.mem_map] at hb
      obtain ⟨r, hr, hrb⟩ := hb
      rw [← hrb]
      exact hK r hr
    rw [List.length_flatten, List.map_map]
    have hcomp : (List.length ∘ PageResponse.data) = fun r : PageResponse => r.data.length := rfl
    rw [hcomp, hrepl, List.sum_replicate, smul_eq_mul]

/-- Concrete run of `pagination_termination`: two pages (the first with a
token, the second without), one event each, give two requests — the
second carrying the first page's token — and both events in order. -/
theorem pagination_termination_check :
    (∀ r ∈ [PageResponse.mk (some "t1") [[("n", "1")]]],
        tokenTruthy r.continuation_token = true) ∧
    tokenTruthy (PageResponse.mk none [[("n", "2")]]).continuation_token = false ∧
    (∀ r ∈ [PageResponse.mk (some "t1") [[("n", "1")]]] ++
        [PageResponse.mk none [[("n", "2")]]], r.data.length = 1) ∧
    (pull_events_notail false
        ([PageResponse.mk (some "t1") [[("n", "1")]]] ++
          [PageResponse.mk none [[("n", "2")]]]) =
      some (none :: [PageResponse.mk (some "t1") [[("n", "1")]]].map
              (fun r => r.continuation_token),
            Except.ok ((([PageResponse.mk (some "t1") [[("n", "1")]]] ++
              [PageResponse.mk none [[("n", "2")]]]).map PageResponse.data).flatten)) ∧
      ((([PageResponse.mk (some "t1") [[("n", "1")]]] ++
        [PageResponse.mk none [[("n", "2")]]]).map PageResponse.data).flatten).length =
        ([PageResponse.mk (some "t1") [[("n", "1")]]].length + 1) * 1) :=
  ⟨by decide, by decide, by decide,
    pagination_termination [PageResponse.mk (some "t1") [[("n", "1")]]]
      (PageResponse.mk none [[("n", "2")]]) 1 (by decide) (by decide) (by decide)⟩

/-- Claim C4 as stated is false at a record that carries no receipt
field: with strip_receipt true its emission does not produce the record
without a receipt field — the `pop` of core.py line 193 has no default
and raises `KeyError`. -/
theorem receipt_pop_missing_raises :
    emitEvent true [("event_type", "AUTH")] ≠ Except.ok [("event_type", "AUTH")] ∧
    emitEvent true [("event_type", "AUTH")] = Except.error "KeyError: receipt" := by
  have h : emitEvent true [("event_type", "AUTH")] = Except.error "KeyError: receipt" := rfl
  exact ⟨by rw [h]; exact fun hc => Except.noConfusion hc, h⟩

lemma hasField_filter_self (e : Event) (k : String) :
    hasField (e.filter (fun p => !(p.1 == k))) k = false := by
  induction e with
  | nil => rfl
  | cons p rest ih =>
      by_cases hp : p.1 == k
      · simp only [List.filter, hp]
        exact ih
      · simp only [List.filter, hp]
        simpa [hasField, hp] using ih

/-- Claim C4 amended: with strip_receipt true, a record carrying a receipt
field is emitted with exactly that field removed (in particular the
emitted record has no receipt field), while a record not carrying one
makes emission raise `KeyError` instead of passing the record through;
with strip_receipt false every record is emitted unmodified. -/
theorem receipt_stripping (e : Event) :
    (hasField e "receipt" = true →
      emitEvent true e = Except.ok (e.filter (fun p => !(p.1 == "receipt"))) ∧
      hasField (e.filter (fun p => !(p.1 == "receipt"))) "receipt" = false) ∧
    (hasField e "receipt" = false →
      emitEvent true e = Except.error "KeyError: receipt") ∧
    emitEvent false e = Except.ok e := by
  refine ⟨fun h => ⟨?_, hasField_filter_self e "receipt"⟩, fun h => ?_, rfl⟩
  · simp [emitEvent, popField, h]
  · simp [emitEvent, popField, h]

/-- Concrete runs of `receipt_stripping`: stripping removes a present
receipt field, and strip_receipt false passes a record through. -/
theorem receipt_stripping_check :
    hasField [("receipt", "abc"), ("event_type", "AUTH")] "receipt" = true ∧
    (emitEvent true [("receipt", "abc"), ("event_type", "AUTH")] =
        Except.ok ([("receipt", "abc"), ("event_type", "AUTH")].filter
          (fun p => !(p.1 == "receipt"))) ∧
      hasField ([("receipt", "abc"), ("event_type", "AUTH")].filter
        (fun p => !(p.1 == "receipt"))) "receipt" = false) ∧
    emitEvent false [("x", "1")] = Except.ok [("x", "1")] :=
  ⟨by decide,
    (receipt_stripping [("receipt", "abc"), ("event_type", "AUTH")]).1 (by decide),
    (receipt_stripping [("x", "1")]).2.2⟩

/-! ## Identity management: groups and the CSV import workflow
(core.py, `IdentityManagementAPI`) -/

/-- One group as returned by the groups endpoints: `{id, name}`. -/
structure Group where
  id : String
  name : String
deriving DecidableEq, Repr

/-- One parsed CSV user (core.py lines 299-304). -/
structure CsvUser where
  full_name : String
  last_name : String
  email : String
  username : String
deriving DecidableEq, Repr

/-- One entry of the bulk-create result: `{id, username, ...}`. -/
structure CreatedUser where
  id : String
  username : String
deriving DecidableEq, Repr

/-- The remote calls the import workflow can issue, in the order the code
issues them. -/
inductive RemoteCall where
  | listGroups : RemoteCall
  | createGroup : String → RemoteCall
  | bulkCreateUsers : List CsvUser → RemoteCall
  | associate : List String → String → RemoteCall
deriving DecidableEq, Repr

/-- A Python dict with string keys and values, represented by its
insertion sequence; lookup returns the value of the latest insertion of
the key, or `none` for a missing key. -/
def dictLookup (pairs : List (String × String)) (k : String) : Option String :=
  (pairs.reverse.find? (fun p => p.1 == k)).map Prod.snd

/-- core.py lines 315-323: the group reconciliation loop over the scanned
group names.  For a name already among the catalog's names
(`g not in groups_map.values()` is false) only the existing counter moves;
otherwise the group is created remotely (`create` gives the created
`{id, name}` of the response), appended to the catalog, and the added
counter moves.  Returns (create calls issued, final catalog, count added,
count existing). -/
def reconcileAux (create : String → Group) :
    List String → List Group → Nat → Nat → List RemoteCall × List Group × Nat × Nat
  | [], catalog, added, existing => ([], catalog, added, existing)
  | g :: rest, catalog, added, existing =>
    if g ∈ catalog.map Group.name then
      reconcileAux create rest catalog added (existing + 1)
    else
      (RemoteCall.createGroup g ::
          (reconcileAux create rest (catalog ++ [create g]) (added + 1) existing).1,
        (reconcileAux create rest (catalog ++ [create g]) (added + 1) existing).2)

/-- The group reconciliation phase starting from the remotely fetched
page of existing groups and zeroed counters (core.py lines 310-314). -/
def reconcileGroups (create : String → Group) (existing_page : List Group)
    (scanned : List String) : List RemoteCall × List Group × Nat × Nat :=
  reconcileAux create scanned existing_page 0 0

lemma length_filter_mem_split (S : List String) (l : List String) :
    (l.filter (fun x => decide (x ∉ S))).length +
      (l.filter (fun x => decide (x ∈ S))).length = l.length := by
  induction l with
  | nil => rfl
  | cons a l ih =>
      by_cases h : a ∈ S <;> simp [List.filter_cons, h] at ih ⊢ <;> omega

lemma reconcileAux_spec (create : String → Group) (hc : ∀ g, (create g).name = g)
    (scanned : List String) :
    ∀ (orig extra : List Group) (added existing : Nat),
      scanned.Nodup →
      (∀ g ∈ scanned, g ∉ extra.map Group.name) →
      reconcileAux create scanned (orig ++ extra) added existing =
        ((scanned.filter (fun x => decide (x ∉ orig.map Group.name))).map
            RemoteCall.createGroup,
          (orig ++ extra) ++
            (scanned.filter (fun x => decide (x ∉ orig.map Group.name))).map create,
          added + (scanned.filter (fun x => decide (x ∉ orig.map Group.name))).length,
          existing + (scanned.filter (fun x => decide (x ∈ orig.map Group.name))).length) := by
  induction scanned with
  | nil => intro orig extra added existing _ _; simp [reconcileAux]
  | cons g rest ih =>
      intro orig extra added existing hnd hdisj
      have hgextra : g ∉ extra.map Group.name := hdisj g (by simp)
      have hnd2 := List.nodup_cons.mp hnd
      have hmemsplit : (g ∈ (orig ++ extra).map Group.name) ↔ g ∈ orig.map Group.name := by
        simp [List.map_append, List.mem_append, hgextra]
      by_cases hg : g ∈ orig.map Group.name
      · rw [reconcileAux, if_pos (hmemsplit.mpr hg)]
        rw [ih orig extra added (existing + 1) hnd2.2
          (fun x hx => hdisj x (List.mem_cons_of_mem g hx))]
        have hdni : (decide (g ∉ orig.map Group.name)) = false := by simp [hg]
        have hdin : (decide (g ∈ orig.map Group.name)) = true := by simp [hg]
        simp only [List.filter_cons, hdni, hdin, eq_self_iff_true, Bool.false_eq_true,
          if_true, if_false, List.length_cons, List.map_cons, Prod.mk.injEq, true_and,
          and_true]
        omega
      · rw [reconcileAux, if_neg (fun hmem => hg (hmemsplit.mp hmem))]
        have hassoc : (orig ++ extra) ++ [create g] = orig ++ (extra ++ [create g]) :=
          List.append_assoc orig extra [create g]
        rw [hassoc]
        have hdisj2 : ∀ x ∈ rest, x ∉ (extra ++ [create g]).map Group.name := by
          intro x hx
          simp only [List.map_append, List.mem_append, List.map_cons, List.map_nil,
            List.mem_singleton, hc g, not_or]
          exact ⟨hdisj x (List.mem_cons_of_mem g hx), fun hxg => hnd2.1 (hxg ▸ hx)⟩
        rw [ih orig (extra ++ [create g]) (added + 1) existing hnd2.2 hdisj2]
        have hdni : (decide (g ∉ orig.map Group.name)) = true := by simp [hg]
        have hdin : (decide (g ∈ orig.map Group.name)) = false := by simp [hg]
        simp only [List.filter_cons, hdni, hdin, eq_self_iff_true, Bool.false_eq_true,
          if_true, if_false, List.length_cons, List.map_cons, Prod.mk.injEq, true_and,
          and_true, List.append_assoc, List.cons_append, List.singleton_append,
          List.nil_append]
        omega

/-- Claim C5: for a CSV whose distinct referenced group names split into
those already present among the remote groups' names and those missing,
the reconciliation phase creates exactly the missing ones, and the
reported counters are `groups_added` = number missing and
`groups_existing` = number present, summing to the number of distinct
referenced names. -/
theorem group_reconciliation_counts (create : String → Group)
    (existing_page : List Group) (scanned : List String)
    (hc : ∀ g, (create g).name = g) (hnd : scanned.Nodup) :
    (reconcileGroups create existing_page scanned).2.2.1 =
        (scanned.filter (fun x => decide (x ∉ existing_page.map Group.name))).length ∧
    (reconcileGroups create existing_page scanned).2.2.2 =
        (scanned.filter (fun x => decide (x ∈ existing_page.map Group.name))).length ∧
    (reconcileGroups create existing_page scanned).1 =
        (scanned.filter (fun x => decide (x ∉ existing_page.map Group.name))).map
          RemoteCall.createGroup ∧
    (reconcileGroups create existing_page scanned).2.2.1 +
        (reconcileGroups create existing_page scanned).2.2.2 = scanned.length := by
  have h := reconcileAux_spec create hc scanned existing_page [] 0 0 hnd (by simp)
  rw [List.append_nil] at h
  unfold reconcileGroups
  rw [h]
  refine ⟨by simp, by simp, rfl, ?_⟩
  simpa using length_filter_mem_split (existing_page.map Group.name) scanned

/-- A concrete group-create response script for concrete runs: the
backend echoes the requested name and assigns a fresh id. -/
def demoCreate (g : String) : Group :=
  { id := "grp-" ++ g, name := g }

/-- Concrete run of `group_reconciliation_counts`: a CSV referencing the
distinct groups A and B, with A pre-existing remotely and B missing,
reports groups_added = 1 and groups_existing = 1 (summing to 2), and the
only create call is for B. -/
theorem group_reconciliation_counts_check :
    List.Nodup ["A", "B"] ∧
    (reconcileGroups demoCreate [Group.mk "g1" "A"] ["A", "B"]).2.2.1 = 1 ∧
    (reconcileGroups demoCreate [Group.mk "g1" "A"] ["A", "B"]).2.2.2 = 1 ∧
    (reconcileGroups demoCreate [Group.mk "g1" "A"] ["A", "B"]).1 =
      [RemoteCall.createGroup "B"] ∧
    (reconcileGroups demoCreate [Group.mk "g1" "A"] ["A", "B"]).2.2.1 +
      (reconcileGroups demoCreate [Group.mk "g1" "A"] ["A", "B"]).2.2.2 = 2 := by
  have h := group_reconciliation_counts demoCreate [Group.mk "g1" "A"] ["A", "B"]
    (fun g => rfl) (by decide)
  refine ⟨by decide, ?_, ?_, ?_, ?_⟩
  · rw [h.1]; rfl
  · rw [h.2.1]; rfl
  · rw [h.2.2.1]; rfl
  · rw [h.2.2.2]; rfl

/-- core.py lines 314 and 319: the reverse name → id dict
(`reverse_groups_map`), as its insertion sequence derived from the catalog
in construction order: the fetched page entries first, then each created
group as it is inserted. -/
def reverse_groups_map (catalog : List Group) : List (String × String) :=
  catalog.map (fun g => (g.name, g.id))

/-- core.py lines 333-335: the association loop over the bulk-create
result: each returned user's CSV group name is looked up in
`user_groupname_map`, mapped to an id through `reverse_groups_map`, and
one association call is issued per user; a missing key in either dict
raises `KeyError`. -/
def associateLoop (reverse_pairs ugm : List (String × String)) :
    List CreatedUser → List RemoteCall × Except String Unit
  | [] => ([], Except.ok ())
  | u :: rest =>
    match dictLookup ugm u.username with
    | none => ([], Except.error "KeyError: username has no group in the CSV map")
    | some gname =>
      match dictLookup reverse_pairs gname with
      | none => ([], Except.error "KeyError: group name missing from the catalog")
      | some gid =>
        (RemoteCall.associate [u.id] gid :: (associateLoop reverse_pairs ugm rest).1,
          (associateLoop reverse_pairs ugm rest).2)

lemma reconcileAux_names_mono (create : String → Group) (scanned : List String) :
    ∀ (cat : List Group) (a e : Nat) (x : String),
      x ∈ cat.map Group.name →
      x ∈ ((reconcileAux create scanned cat a e).2.1).map Group.name := by
  induction scanned with
  | nil => intro cat a e x hx; simpa [reconcileAux] using hx
  | cons g rest ih =>
      intro cat a e x hx
      by_cases hg : g ∈ cat.map Group.name
      · rw [reconcileAux, if_pos hg]
        exact ih cat a (e + 1) x hx
      · rw [reconcileAux, if_neg hg]
        exact ih (cat ++ [create g]) (a + 1) e x (by simp [List.map_append, hx])

lemma reconcileAux_mem_names (create : String → Group) (hc : ∀ x, (create x).name = x)
    (scanned : List String) :
    ∀ (cat : List Group) (a e : Nat) (g : String), g ∈ scanned →
      g ∈ ((reconcileAux create scanned cat a e).2.1).map Group.name := by
  induction scanned with
  | nil => intro cat a e g hg; cases hg
  | cons x rest ih =>
      intro cat a e g hg
      by_cases hx : x ∈ cat.map Group.name
      · rw [reconcileAux, if_pos hx]
        rcases List.mem_cons.mp hg with h | h
        · subst h
          exact reconcileAux_names_mono create rest cat a (e + 1) g hx
        · exact ih cat a (e + 1) g h
      · rw [reconcileAux, if_neg hx]
        rcases List.mem_cons.mp hg with h | h
        · subst h
          exact reconcileAux_names_mono create rest (cat ++ [create g]) (a + 1) e g
            (by simp [List.map_append, hc g])
        · exact ih (cat ++ [create x]) (a + 1) e g h

lemma dictLookup_isSome_of_mem (pairs : List (String × String)) (k : String)
    (h : k ∈ pairs.map Prod.fst) : (dictLookup pairs k).isSome = true := by
  unfold dictLookup
  obtain ⟨p, hp, hpk⟩ := List.mem_map.mp h
  have hfind : (pairs.reverse.find? (fun q => q.1 == k)).isSome = true := by
    rw [List.find?_isSome]
    exact ⟨p, List.mem_reverse.mpr hp, by simp [hpk]⟩
  simpa [Option.isSome_map] using hfind

lemma associateLoop_ok (rev ugm : List (String × String)) (results : List CreatedUser)
    (hres : ∀ u ∈ results, ∃ gn, dictLookup ugm u.username = some gn ∧
      (dictLookup rev gn).isSome = true) :
    associateLoop rev ugm results =
      (results.map (fun u => RemoteCall.associate [u.id]
        ((dictLookup rev ((dictLookup ugm u.username).getD "")).getD "")),
        Except.ok ()) := by
  revert hres
  induction results with
  | nil => intro _; rfl
  | cons u rest ih =>
      intro hres
      obtain ⟨gn, hgn, hsome⟩ := hres u (List.mem_cons_self u rest)
      obtain ⟨gid, hgid⟩ := Option.isSome_iff_exists.mp hsome
      simp only [associateLoop, hgn, hgid,
        ih (fun v hv => hres v (List.mem_cons_of_mem u hv))]
      simp [hgn, hgid]

/-- Claim C6: after the group reconciliation phase, the reverse
name → id catalog resolves every scanned group name to exactly one id
(the dict holds a single binding per key and lookup yields a value), and
the association loop over the bulk-create result then succeeds, issuing
for each returned user exactly one call carrying the id the catalog
assigns to that user's CSV group name. -/
theorem catalog_resolution (create : String → Group) (page : List Group)
    (scanned : List String) (ugm : List (String × String))
    (results : List CreatedUser) (g : String)
    (hc : ∀ x, (create x).name = x)
    (hg : g ∈ scanned)
    (hres : ∀ u ∈ results, ∃ gn, dictLookup ugm u.username = some gn ∧ gn ∈ scanned) :
    (dictLookup (reverse_groups_map (reconcileGroups create page scanned).2.1) g).isSome
        = true ∧
    associateLoop (reverse_groups_map (reconcileGroups create page scanned).2.1) ugm
        results =
      (results.map (fun u => RemoteCall.associate [u.id]
        ((dictLookup (reverse_groups_map (reconcileGroups create page scanned).2.1)
          ((dictLookup ugm u.username).getD "")).getD "")),
        Except.ok ()) := by
  have hkeys : ∀ x ∈ scanned,
      (dictLookup (reverse_groups_map (reconcileGroups create page scanned).2.1)
        x).isSome = true := by
    intro x hx
    apply dictLookup_isSome_of_mem
    unfold reverse_groups_map
    rw [List.map_map]
    have hfst : (Prod.fst ∘ fun gr : Group => (gr.name, gr.id)) = Group.name := rfl
    rw [hfst]
    exact reconcileAux_mem_names create hc scanned page 0 0 x hx
  refine ⟨hkeys g hg, ?_⟩
  apply associateLoop_ok
  intro u hu
  obtain ⟨gn, hgn, hgns⟩ := hres u hu
  exact ⟨gn, hgn, hkeys gn hgns⟩

/-- Concrete run of `catalog_resolution`: with remote group A, CSV groups
{A, B} (B freshly created as grp-B), and one returned user alice mapped to
B, the catalog resolves B and the association loop issues exactly the call
associating alice's id to grp-B. -/
theorem catalog_resolution_check :
    ("B" ∈ ["A", "B"]) ∧
    (dictLookup (reverse_groups_map
        (reconcileGroups demoCreate [Group.mk "g1" "A"] ["A", "B"]).2.1) "B").isSome
      = true ∧
    associateLoop (reverse_groups_map
        (reconcileGroups demoCreate [Group.mk "g1" "A"] ["A", "B"]).2.1)
        [("alice", "B")] [CreatedUser.mk "u1" "alice"] =
      ([RemoteCall.associate ["u1"] "grp-B"], Except.ok ()) := by
  have h := catalog_resolution demoCreate [Group.mk "g1" "A"] ["A", "B"]
    [("alice", "B")] [CreatedUser.mk "u1" "alice"] "B" (fun x => rfl) (by decide)
    (by
      intro u hu
      rw [List.mem_singleton] at hu
      subst hu
      exact ⟨"B", rfl, by decide⟩)
  refine ⟨by decide, h.1, ?_⟩
  rw [h.2]
  rfl

/-! ## CSV parsing and the full import workflow
(core.py, `IdentityManagementAPI.import_users_from_csv`) -/

/-- core.py lines 299-306: parsing one CSV row.  Columns are
email (0), first name (1), last name (2), username (3), group name (4);
the full name comes from the caller-supplied format applied to first and
last name.  A row with fewer than five columns raises `IndexError`.
Returns the new-user record with its username → group-name pair. -/
def parseRow (fmt : String → String → String) (row : List String) :
    Except String (CsvUser × String × String) :=
  match row with
  | email :: firstname :: lastname :: uname :: gname :: _ =>
      Except.ok (⟨fmt firstname lastname, lastname, email, uname⟩, uname, gname)
  | _ => Except.error "IndexError: list index out of range"

/-- core.py lines 298-307: the CSV parse loop: `new_users` in row order,
the `user_groupname_map` insertion sequence, and the set of referenced
group names (a Python set, modelled as a deduplicated list).  The loop
fails at the first malformed row. -/
def parseRows (fmt : String → String → String) :
    List (List String) → Except String (List CsvUser × List (String × String) × List String)
  | [] => Except.ok ([], [], [])
  | row :: rest =>
    match parseRow fmt row with
    | Except.error e => Except.error e
    | Except.ok (user, uname, gname) =>
      match parseRows fmt rest with
      | Except.error e => Except.error e
      | Except.ok (us, ugm, gs) =>
          Except.ok (user :: us, (uname, gname) :: ugm,
            if gname ∈ gs then gs else gname :: gs)

/-- core.py lines 296-297: `if ignore_header: next(reader)` — skipping the
header row; `next` on an exhausted reader raises `StopIteration`. -/
def headerSkip (ignore_header : Bool) (rows : List (List String)) :
    Except String (List (List String)) :=
  if ignore_header then
    match rows with
    | [] => Except.error "StopIteration"
    | _ :: t => Except.ok t
  else Except.ok rows

/-- The remote behavior the import workflow interacts with: the existing
group page returned by `list_groups`, the group-create response per name,
and the bulk-create result for the submitted users. -/
structure RemoteEnv where
  page : List Group
  createResult : String → Group
  bulkResult : List CsvUser → List CreatedUser

/-- core.py lines 279-335, `import_users_from_csv` as a function of the
CSV rows and a remote-behavior script: skip the header if asked, parse
every row, reconcile groups (one `list_groups` call, then one create per
missing name), bulk-create the parsed users, then associate each returned
user to its group.  Returns the remote calls issued, in order, and either
the (groups added, groups existing) counters of the printed summary or
the uncaught error. -/
def import_users_from_csv (env : RemoteEnv) (fmt : String → String → String)
    (ignore_header : Bool) (rows : List (List String)) :
    List RemoteCall × Except String (Nat × Nat) :=
  match headerSkip ignore_header rows with
  | Except.error e => ([], Except.error e)
  | Except.ok body =>
    match parseRows fmt body with
    | Except.error e => ([], Except.error e)
    | Except.ok (new_users, ugm, scanned) =>
      (RemoteCall.listGroups ::
          ((reconcileAux env.createResult scanned env.page 0 0).1 ++
            (RemoteCall.bulkCreateUsers new_users ::
              (associateLoop
                (reverse_groups_map (reconcileAux env.createResult scanned env.page 0 0).2.1)
                ugm (env.bulkResult new_users)).1)),
        match (associateLoop
            (reverse_groups_map (reconcileAux env.createResult scanned env.page 0 0).2.1)
            ugm (env.bulkResult new_users)).2 with
        | Except.ok _ =>
            Except.ok ((reconcileAux env.createResult scanned env.page 0 0).2.2.1,
              (reconcileAux env.createResult scanned env.page 0 0).2.2.2)
        | Except.error e => Except.error e)

lemma parseRow_short (fmt : String → String → String) (row : List String)
    (h : row.length < 5) :
    parseRow fmt row = Except.error "IndexError: list index out of range" := by
  match row with
  | [] => rfl
  | [a] => rfl
  | [a, b] => rfl
  | [a, b, c] => rfl
  | [a, b, c, d] => rfl
  | a :: b :: c :: d :: e :: t => simp at h; omega

lemma parseRow_error_msg (fmt : String → String → String) (row : List String)
    (e : String) (h : parseRow fmt row = Except.error e) :
    e = "IndexError: list index out of range" := by
  match row with
  | a :: b :: c :: d :: f :: t => exact absurd h (by simp [parseRow])
  | [] => simp [parseRow] at h; exact h.symm
  | [a] => simp [parseRow] at h; exact h.symm
  | [a, b] => simp [parseRow] at h; exact h.symm
  | [a, b, c] => simp [parseRow] at h; exact h.symm
  | [a, b, c, d] => simp [parseRow] at h; exact h.symm

lemma parseRows_error_of_short (fmt : String → String → String)
    (rows : List (List String)) (h : ∃ r ∈ rows, r.length < 5) :
    parseRows fmt rows = Except.error "IndexError: list index out of range" := by
  induction rows with
  | nil => simp at h
  | cons row rest ih =>
      obtain ⟨r, hr, hlen⟩ := h
      rcases List.mem_cons.mp hr with heq | hmem
      · subst heq
        rw [parseRows, parseRow_short fmt r hlen]
      · rw [parseRows]
        cases hpr : parseRow fmt row with
        | error e => rw [parseRow_error_msg fmt row e hpr]
        | ok v =>
            obtain ⟨user, uname, gname⟩ := v
            simp only [ih ⟨r, hmem, hlen⟩]

/-- Claim C7: a CSV containing a data row with fewer than the five
required columns makes the import fail in the parse phase with the
uncaught `IndexError`, before any remote call is attempted: the issued
call trace is empty — no group listing or creation, no bulk user upsert,
no association. -/
theorem malformed_row_no_partial_apply (env : RemoteEnv)
    (fmt : String → String → String) (rows : List (List String))
    (h : ∃ r ∈ rows, r.length < 5) :
    import_users_from_csv env fmt false rows =
      ([], Except.error "IndexError: list index out of range") := by
  unfold import_users_from_csv
  simp only [show headerSkip false rows = Except.ok rows from rfl,
    parseRows_error_of_short fmt rows h]

/-- A concrete remote environment for concrete runs of the import. -/
def demoEnv : RemoteEnv :=
  { page := [], createResult := demoCreate, bulkResult := fun _ => [] }

/-- The default full-name format of the CLI
(`"{firstname} {lastname}"`). -/
def demoFmt (firstname lastname : String) : String :=
  firstname ++ " " ++ lastname

/-- Concrete run of `malformed_row_no_partial_apply`: a two-column row
aborts the import with IndexError and an empty remote-call trace. -/
theorem malformed_row_no_partial_apply_check :
    (∃ r ∈ [["a@x.com", "First"]], r.length < 5) ∧
    import_users_from_csv demoEnv demoFmt false [["a@x.com", "First"]] =
      ([], Except.error "IndexError: list index out of range") :=
  ⟨by decide,
    malformed_row_no_partial_apply demoEnv demoFmt [["a@x.com", "First"]] (by decide)⟩

/-! ## Transport error handling (core.py, `BaseAPIHelper.get` / `post`) -/

/-- One HTTP response: status code, raw body text, and the parsed JSON
payload (opaque here). -/
structure HttpResponse where
  status_code : Nat
  text : String
  body : String
deriving DecidableEq, Repr

/-- Outcome of the GET path: either the process exits with a code after
printing the error lines, or the parsed body is returned. -/
inductive GetOutcome where
  | exited : Nat → List String → GetOutcome
  | ok : String → GetOutcome
deriving DecidableEq, Repr

/-- core.py lines 41-50, `BaseAPIHelper.get`: on any status other than
`requests.codes.ok` (200), print the FATAL diagnostic (method, URL,
status) and the response body to stderr and exit the process with code 1;
otherwise return the parsed JSON body. -/
def api_get (method url : String) (resp : HttpResponse) : GetOutcome :=
  if resp.status_code ≠ 200 then
    GetOutcome.exited 1
      ["FATAL: API call " ++ method ++ " " ++ url ++ " returned HTTP/"
          ++ toString resp.status_code,
        resp.text]
  else GetOutcome.ok resp.body

/-- core.py lines 52-57, `BaseAPIHelper.post`: on any status other than
200, raise an exception carrying status and body — no caller in core.py
catches it, so it propagates; otherwise return the parsed JSON body. -/
def api_post (resp : HttpResponse) : Except String String :=
  if resp.status_code ≠ 200 then
    Except.error ("Akamai MFA API response error HTTP/" ++ toString resp.status_code
      ++ ", " ++ resp.text)
  else Except.ok resp.body

/-- Claim C8: for every response with a non-success status, the GET path
exits the process with code 1 after reporting method, URL, status, and
the response body, while the POST path raises (an error that propagates,
since its callers never catch); on a 200 both paths return the parsed
body. -/
theorem transport_error_paths (method url : String) (resp : HttpResponse) :
    (resp.status_code ≠ 200 →
      api_get method url resp = GetOutcome.exited 1
        ["FATAL: API call " ++ method ++ " " ++ url ++ " returned HTTP/"
            ++ toString resp.status_code,
          resp.text] ∧
      api_post resp = Except.error ("Akamai MFA API response error HTTP/"
        ++ toString resp.status_code ++ ", " ++ resp.text)) ∧
    (resp.status_code = 200 →
      api_get method url resp = GetOutcome.ok resp.body ∧
      api_post resp = Except.ok resp.body) := by
  refine ⟨fun h => ⟨?_, ?_⟩, fun h => ⟨?_, ?_⟩⟩
  · unfold api_get; rw [if_pos h]
  · unfold api_post; rw [if_pos h]
  · unfold api_get; rw [if_neg (fun hc => hc h)]
  · unfold api_post; rw [if_neg (fun hc => hc h)]

/-- Concrete runs of `transport_error_paths`: a 404 exits the GET path
with code 1 carrying the diagnostic and body and raises on the POST path;
a 200 returns the body on both paths. -/
theorem transport_error_paths_check :
    (404 : Nat) ≠ 200 ∧
    (api_get "POST" "https://mfa.akamai.com/x" (HttpResponse.mk 404 "oops" "b") =
        GetOutcome.exited 1
          ["FATAL: API call POST https://mfa.akamai.com/x returned HTTP/404", "oops"] ∧
      api_post (HttpResponse.mk 404 "oops" "b") =
        Except.error "Akamai MFA API response error HTTP/404, oops") ∧
    (200 : Nat) = 200 ∧
    (api_get "GET" "/api/v1/control/groups" (HttpResponse.mk 200 "" "body") =
        GetOutcome.ok "body" ∧
      api_post (HttpResponse.mk 200 "" "body") = Except.ok "body") := by
  have herr := (transport_error_paths "POST" "https://mfa.akamai.com/x"
    (HttpResponse.mk 404 "oops" "b")).1 (by decide)
  have hok := (transport_error_paths "GET" "/api/v1/control/groups"
    (HttpResponse.mk 200 "" "body")).2 rfl
  exact ⟨by decide, ⟨by rw [herr.1]; rfl, by rw [herr.2]; rfl⟩, rfl, hok⟩

/-! ## Group lookup and enrollment
(core.py, `IdentityManagementAPI.group_id` / `enroll_users`) -/

/-- core.py lines 253-260, the loop of `group_id` over the returned page:
for each entry whose name equals the queried name, record its id if none
was recorded yet, and raise the ambiguity exception as soon as a second
match is seen; `acc` is the `group_id` local (initially None). -/
def groupIdLoop (group_name : String) (acc : Option String) :
    List Group → Except String (Option String)
  | [] => Except.ok acc
  | m :: rest =>
    if m.name == group_name then
      if acc.isNone then groupIdLoop group_name (some m.id) rest
      else Except.error ("Ambiguity, more than one group matching name " ++ group_name)
    else groupIdLoop group_name acc rest

/-- core.py lines 239-260, `group_id`: scan the page the server returned
for the name filter and return the id of the unique matching group, None
when none matches, or raise on a duplicate name. -/
def group_id (page : List Group) (group_name : String) : Except String (Option String) :=
  groupIdLoop group_name none page

/-- Outcome of the enrollment-invite operation. -/
inductive EnrollOutcome where
  | raised : String → EnrollOutcome
  | exited : Nat → List String → EnrollOutcome
  | sent : List String → EnrollOutcome
deriving DecidableEq, Repr

/-- core.py lines 337-352, `enroll_users`: resolve the group name; a
lookup exception propagates uncaught; when no id is found, print
"Group ... not found." and exit with code 2 without issuing the
enrollment POST; otherwise POST the payload with `groups = [group_id]`. -/
def enroll_users (page : List Group) (group_name : String) : EnrollOutcome :=
  match group_id page group_name with
  | Except.error e => EnrollOutcome.raised e
  | Except.ok none =>
      EnrollOutcome.exited 2 ["Group " ++ group_name ++ " not found."]
  | Except.ok (some gid) => EnrollOutcome.sent [gid]

lemma groupIdLoop_no_match (group_name : String) :
    ∀ (page : List Group) (acc : Option String),
      (page.filter (fun m => m.name == group_name)).length = 0 →
      groupIdLoop group_name acc page = Except.ok acc := by
  intro page
  induction page with
  | nil => intro acc _; rfl
  | cons m rest ih =>
      intro acc h
      by_cases hm : (m.name == group_name) = true
      · exfalso; simp [List.filter_cons, hm] at h
      · have hm2 : (m.name == group_name) = false := by
          simpa using hm
        rw [groupIdLoop, if_neg (by simp [hm2])]
        exact ih acc (by simpa [List.filter_cons, hm2] using h)

lemma groupIdLoop_ambiguous (group_name : String) :
    ∀ (page : List Group) (acc : Option String),
      ((acc.isSome = true ∧ 1 ≤ (page.filter (fun m => m.name == group_name)).length) ∨
        2 ≤ (page.filter (fun m => m.name == group_name)).length) →
      groupIdLoop group_name acc page =
        Except.error ("Ambiguity, more than one group matching name " ++ group_name) := by
  intro page
  induction page with
  | nil =>
      intro acc h
      rcases h with ⟨_, h⟩ | h <;> simp at h
  | cons m rest ih =>
      intro acc h
      by_cases hm : (m.name == group_name) = true
      · rw [groupIdLoop, if_pos hm]
        cases acc with
        | some x => rw [if_neg (by simp)]
        | none =>
            rw [if_pos (by simp)]
            apply ih (some m.id)
            left
            refine ⟨rfl, ?_⟩
            rcases h with ⟨hs, _⟩ | h2
            · exact absurd hs (by simp)
            · simp only [List.filter_cons, hm, if_true, List.length_cons] at h2
              omega
      · have hm2 : (m.name == group_name) = false := by simpa using hm
        rw [groupIdLoop, if_neg (by simp [hm2])]
        apply ih acc
        rcases h with ⟨hs, h1⟩ | h2
        · exact Or.inl ⟨hs, by simpa [List.filter_cons, hm2] using h1⟩
        · exact Or.inr (by simpa [List.filter_cons, hm2] using h2)

/-- Claim C9: when two or more groups on the page carry the queried name,
the lookup raises the ambiguity error rather than silently picking one;
when none carries it, the lookup returns no id, and the enrollment-invite
operation then reports the group as not found and exits with code 2
without issuing the enrollment call. -/
theorem group_lookup_paths (page : List Group) (group_name : String) :
    (2 ≤ (page.filter (fun m => m.name == group_name)).length →
      group_id page group_name =
        Except.error ("Ambiguity, more than one group matching name " ++ group_name)) ∧
    ((page.filter (fun m => m.name == group_name)).length = 0 →
      group_id page group_name = Except.ok none ∧
      enroll_users page group_name =
        EnrollOutcome.exited 2 ["Group " ++ group_name ++ " not found."]) := by
  constructor
  · intro h
    exact groupIdLoop_ambiguous group_name page none (Or.inr h)
  · intro h
    have h0 : group_id page group_name = Except.ok none :=
      groupIdLoop_no_match group_name page none h
    exact ⟨h0, by unfold enroll_users; rw [h0]⟩

/-- Concrete runs of `group_lookup_paths`: two groups both named dup make
the lookup raise; an empty page makes the invite exit 2 with the
not-found report. -/
theorem group_lookup_paths_check :
    (2 ≤ ([Group.mk "1" "dup", Group.mk "2" "dup"].filter
        (fun m => m.name == "dup")).length ∧
      group_id [Group.mk "1" "dup", Group.mk "2" "dup"] "dup" =
        Except.error ("Ambiguity, more than one group matching name " ++ "dup")) ∧
    (([] : List Group).filter (fun m => m.name == "ghost")).length = 0 ∧
    group_id [] "ghost" = Except.ok none ∧
    enroll_users [] "ghost" =
      EnrollOutcome.exited 2 ["Group " ++ "ghost" ++ " not found."] :=
  ⟨⟨by decide,
      (group_lookup_paths [Group.mk "1" "dup", Group.mk "2" "dup"] "dup").1 (by decide)⟩,
    by decide,
    ((group_lookup_paths [] "ghost").2 (by decide)).1,
    ((group_lookup_paths [] "ghost").2 (by decide)).2⟩

/-! ## User listing pagination (core.py, `IdentityManagementAPI.list_users`) -/

/-- One printed user record (the `userId,username,userStatus` projection). -/
structure UserRecord where
  userId : String
  username : String
  userStatus : String
deriving DecidableEq, Repr

/-- One response of GET /amfa/v1/users: the optional totalPages count and
the page's user records. -/
structure UsersPage where
  totalPages : Option Nat
  users : List UserRecord

/-- core.py lines 354-376, the `list_users` loop, against a server
scripted as a function from page number to response, with fuel bounding
the iterations (the loop runs while `total_page is None or
page <= total_page`, and a server reporting ever more pages would spin
forever).  State: next page number, the last reported total_page
(re-read from every response and defaulting to 1 when `totalPages` is
absent), requests issued so far, records printed so far, and the
`total_users` counter.  Returns (requests, printed records, summary
count) when the loop exits, `none` when fuel runs out first. -/
def listUsersAux (fetch : Nat → UsersPage) :
    Nat → Nat → Option Nat → Nat → List UserRecord → Nat →
    Option (Nat × List UserRecord × Nat)
  | 0, page, total_page, reqs, outs, total_users =>
      if total_page.isNone || decide (page ≤ total_page.getD 0) then none
      else some (reqs, outs, total_users)
  | fuel + 1, page, total_page, reqs, outs, total_users =>
      if total_page.isNone || decide (page ≤ total_page.getD 0) then
        listUsersAux fetch fuel (page + 1) (some ((fetch page).totalPages.getD 1))
          (reqs + 1) (outs ++ (fetch page).users)
          (total_users + (fetch page).users.length)
      else some (reqs, outs, total_users)

/-- `list_users` from its initial state (core.py lines 358-361): page 1,
total_page unknown, no requests issued, nothing printed, counter 0. -/
def list_users (fetch : Nat → UsersPage) (fuel : Nat) :
    Option (Nat × List UserRecord × Nat) :=
  listUsersAux fetch fuel 1 none 0 [] 0

lemma listUsersAux_count (fetch : Nat → UsersPage) :
    ∀ (fuel page : Nat) (tp : Option Nat) (reqs : Nat) (outs : List UserRecord)
      (tu r : Nat) (out : List UserRecord) (s : Nat),
      tu = outs.length →
      listUsersAux fetch fuel page tp reqs outs tu = some (r, out, s) →
      s = out.length := by
  intro fuel
  induction fuel with
  | zero =>
      intro page tp reqs outs tu r out s hinv hrun
      rw [listUsersAux] at hrun
      by_cases hc : (tp.isNone || decide (page ≤ tp.getD 0)) = true
      · rw [if_pos hc] at hrun; cases hrun
      · rw [if_neg hc] at hrun
        simp only [Option.some.injEq, Prod.mk.injEq] at hrun
        obtain ⟨h1, h2, h3⟩ := hrun
        rw [← h3, ← h2]
        exact hinv
  | succ fuel ih =>
      intro page tp reqs outs tu r out s hinv hrun
      rw [listUsersAux] at hrun
      by_cases hc : (tp.isNone || decide (page ≤ tp.getD 0)) = true
      · rw [if_pos hc] at hrun
        exact ih (page + 1) (some ((fetch page).totalPages.getD 1)) (reqs + 1)
          (outs ++ (fetch page).users) (tu + (fetch page).users.length) r out s
          (by simp [hinv]) hrun
      · rw [if_neg hc] at hrun
        simp only [Option.some.injEq, Prod.mk.injEq] at hrun
        obtain ⟨h1, h2, h3⟩ := hrun
        rw [← h3, ← h2]
        exact hinv

lemma listUsers_first_page_omits (fetch : Nat → UsersPage) (fuel : Nat)
    (h1 : (fetch 1).totalPages = none) (hf : 1 ≤ fuel) :
    list_users fetch fuel = some (1, [] ++ (fetch 1).users, 0 + (fetch 1).users.length) := by
  obtain ⟨f, rfl⟩ : ∃ f, fuel = f + 1 := ⟨fuel - 1, by omega⟩
  unfold list_users
  rw [listUsersAux, if_pos (by simp)]
  rw [h1]
  simp only [Option.getD_none]
  cases f with
  | zero => rw [listUsersAux, if_neg (by simp)]
  | succ f2 => rw [listUsersAux, if_neg (by simp)]

/-- Claim C10: whenever the user-listing loop terminates, the trailing
summary count equals exactly the number of user records printed across
all pages; and when the first page response omits `totalPages`, the total
page count is taken to be 1, so exactly one page request is issued and
precisely that page's records are printed. -/
theorem list_users_pagination (fetch : Nat → UsersPage) (fuel r : Nat)
    (out : List UserRecord) (s : Nat)
    (hrun : list_users fetch fuel = some (r, out, s)) :
    s = out.length ∧
    ((fetch 1).totalPages = none →
      r = 1 ∧ out = (fetch 1).users ∧ s = (fetch 1).users.length) := by
  constructor
  · exact listUsersAux_count fetch fuel 1 none 0 [] 0 r out s rfl hrun
  · intro h1
    have hf : 1 ≤ fuel := by
      by_contra hlt
      have hz : fuel = 0 := by omega
      subst hz
      rw [list_users, listUsersAux, if_pos (by simp)] at hrun
      cases hrun
    have hv := listUsers_first_page_omits fetch fuel h1 hf
    rw [hv] at hrun
    simp only [Option.some.injEq, Prod.mk.injEq, List.nil_append, Nat.zero_add] at hrun
    obtain ⟨ha, hb, hcq⟩ := hrun
    exact ⟨ha.symm, hb.symm, hcq.symm⟩

/-- A concrete one-page server whose single response omits totalPages. -/
def demoFetch (_ : Nat) : UsersPage :=
  { totalPages := none, users := [UserRecord.mk "u-1" "alice" "ACTIVE"] }

/-- Concrete run of `list_users_pagination`: a server omitting totalPages
gets exactly one request, and the summary count 1 equals the single
record printed. -/
theorem list_users_pagination_check :
    list_users demoFetch 3 = some (1, [UserRecord.mk "u-1" "alice" "ACTIVE"], 1) ∧
    ((1 : Nat) = [UserRecord.mk "u-1" "alice" "ACTIVE"].length ∧
      ((demoFetch 1).totalPages = none →
        (1 : Nat) = 1 ∧ [UserRecord.mk "u-1" "alice" "ACTIVE"] = (demoFetch 1).users ∧
          (1 : Nat) = (demoFetch 1).users.length)) :=
  ⟨rfl, list_users_pagination demoFetch 3 1 [UserRecord.mk "u-1" "alice" "ACTIVE"] 1 rfl⟩

end Amfa
